import Mathlib

/-!
Shallow embedding of the chess-game server repository.

The repository ships four alternate server implementations in one source
file, separated by document markers:

* `WsUuid`    — the `ws` + `uuid` server (part_000 lines 1–171);
* `SioTimers` — the socket.io server with elapsed-time clock deduction
                (lines 172–351);
* `WsMin`     — the minimal `ws` server with no turn check (lines 352–459);
* `SioRec`    — the socket.io server with reconnection support and a fixed
                one-second clock decrement (lines 461–749).

The chess rule engine (`chess.js`) is an external dependency, out of the
repository; handlers are parameterised over an abstract `Engine`, and
concrete evaluations use the executable `toyE` engine below.  Wall-clock
reads (`Date.now()`) and freshly generated uuids are passed as explicit
parameters.  JS objects keyed by id (`room.players`, the `rooms` map) are
modelled as insertion-ordered association lists.
-/

inductive Color where
  | white
  | black
deriving DecidableEq, Repr

def Color.other : Color → Color
  | .white => .black
  | .black => .white

/-- A move payload `{from, to, promotion?}` as sent by a client. -/
structure MoveArg where
  mfrom : String
  mto : String
  promo : Option Char
deriving DecidableEq, Repr

/-- The per-room clock pair `timers = { white: secs, black: secs }`.
Values are JS numbers holding (possibly negative) integral second counts. -/
structure Timers where
  white : Int
  black : Int
deriving DecidableEq, Repr

def Timers.get (t : Timers) : Color → Int
  | .white => t.white
  | .black => t.black

def Timers.set (t : Timers) : Color → Int → Timers
  | .white, v => { t with white := v }
  | .black, v => { t with black := v }

/-- Destination of an emitted event: the requesting connection
(`socket.emit`), the whole room (`io.to(room).emit` / broadcast helpers),
or the other members of the room (`socket.to(room).emit`). -/
inductive Dest where
  | toSelf
  | toRoom
  | toOthers
deriving DecidableEq, Repr

/-- Outbound events, one constructor per distinct payload shape used by the
four server variants.  The chess.js move-result object included in some
payloads is abstracted away (it is engine output, not coordinator state). -/
inductive Ev where
  | errMsg (m : String)
  | invalid (m : String)
  | joinedD (pid : String) (color : Color) (fen : String) (timers : Timers) (names : List String)
  | joinedA (pid : String) (color : Color) (fen : String) (names : List String)
  | joinedC (color : Color) (index : Nat)
  | reconnected (pid name : String) (color : Color)
  | startD (fen : String) (timers : Timers) (turn : Color) (names : List String)
  | startA (fen : String) (turn : Color) (names : List String)
  | startC (color : Color) (names : List String) (fen : String)
  | waiting (m : String)
  | playerJoinedD (pid name : String) (color : Color)
  | playerJoinedB (name : String) (color : Color)
  | moveD (fen pgn : String) (turn : Color) (timers : Timers)
  | moveA (fen pgn : String) (turn : Color)
  | moveC (fen pgn : String)
  | gameoverEv (reason fen pgn : String)
  | timersEv (timers : Timers) (turn : Color)
  | timeoutsEv (winner : Color)
  | chatEv (sender text : String)
  | chatRawEv (sender : String) (text : Option String)
  | peerLeft
  | peerLeftInfo (pid name : String) (color : Color)
  | resignEv (winner : Color)
  | rematchA (fen : String)
  | rematchD (fen : String) (timers : Timers)
deriving DecidableEq, Repr

/-- Insertion-ordered association list, modelling a JS `Map` or a plain
object keyed by id. -/
abbrev KMap (α : Type) : Type := List (String × α)

def KMap.lookupK {α : Type} : KMap α → String → Option α
  | [], _ => none
  | (k, v) :: rest, key => if k = key then some v else KMap.lookupK rest key

/-- `Map.set` / property assignment: replace in place if the key is
present, else append (insertion order preserved). -/
def KMap.setK {α : Type} : KMap α → String → α → KMap α
  | [], key, v => [(key, v)]
  | (k, w) :: rest, key, v =>
      if k = key then (k, v) :: rest else (k, w) :: KMap.setK rest key v

/-- `Map.delete` / `delete obj[key]`. -/
def KMap.eraseK {α : Type} : KMap α → String → KMap α
  | [], _ => []
  | (k, v) :: rest, key =>
      if k = key then rest else (k, v) :: KMap.eraseK rest key

theorem KMap.lookupK_setK_self {α : Type} (l : KMap α) (k : String) (v : α) :
    (l.setK k v).lookupK k = some v := by
  induction l with
  | nil => simp [KMap.setK, KMap.lookupK]
  | cons hd tl ih =>
      obtain ⟨k', w⟩ := hd
      by_cases h : k' = k
      · simp [KMap.setK, KMap.lookupK, h]
      · simp [KMap.setK, KMap.lookupK, h, ih]

theorem KMap.lookupK_setK_ne {α : Type} (l : KMap α) (k k' : String) (v : α)
    (h : k ≠ k') : (l.setK k v).lookupK k' = l.lookupK k' := by
  induction l with
  | nil => simp [KMap.setK, KMap.lookupK, h]
  | cons hd tl ih =>
      obtain ⟨k₀, w⟩ := hd
      by_cases h0 : k₀ = k
      · subst h0; simp [KMap.setK, KMap.lookupK, h]
      · simp [KMap.setK, KMap.lookupK, h0, ih]

theorem KMap.setK_self_of_lookupK {α : Type} (l : KMap α) (k : String) (v : α)
    (h : l.lookupK k = some v) : l.setK k v = l := by
  induction l with
  | nil => simp [KMap.lookupK] at h
  | cons hd tl ih =>
      obtain ⟨k₀, w⟩ := hd
      by_cases h0 : k₀ = k
      · subst h0
        simp [KMap.lookupK] at h
        simp [KMap.setK, h]
      · simp [KMap.lookupK, h0] at h
        simp [KMap.setK, h0, ih h]

theorem KMap.mem_of_lookupK {α : Type} (l : KMap α) (k : String) (v : α)
    (h : l.lookupK k = some v) : (k, v) ∈ l := by
  induction l with
  | nil => simp [KMap.lookupK] at h
  | cons hd tl ih =>
      obtain ⟨k₀, w⟩ := hd
      by_cases h0 : k₀ = k
      · subst h0
        simp [KMap.lookupK] at h
        simp [h]
      · simp [KMap.lookupK, h0] at h
        exact List.mem_cons_of_mem _ (ih h)

theorem KMap.mem_setK {α : Type} (l : KMap α) (k : String) (v : α)
    (p : String × α) (hp : p ∈ l.setK k v) : p = (k, v) ∨ p ∈ l := by
  induction l with
  | nil => simpa [KMap.setK] using hp
  | cons hd tl ih =>
      obtain ⟨k₀, w⟩ := hd
      by_cases h0 : k₀ = k
      · subst h0
        simp [KMap.setK] at hp
        rcases hp with h | h
        · exact Or.inl (by simp [h])
        · exact Or.inr (List.mem_cons_of_mem _ h)
      · simp [KMap.setK, h0] at hp
        rcases hp with h | h
        · exact Or.inr (by simp [h])
        · rcases ih h with h' | h'
          · exact Or.inl h'
          · exact Or.inr (List.mem_cons_of_mem _ h')

theorem KMap.mem_eraseK {α : Type} (l : KMap α) (k : String)
    (p : String × α) (hp : p ∈ l.eraseK k) : p ∈ l := by
  induction l with
  | nil => simp [KMap.eraseK] at hp
  | cons hd tl ih =>
      obtain ⟨k₀, w⟩ := hd
      by_cases h0 : k₀ = k
      · simp [KMap.eraseK, h0] at hp
        exact List.mem_cons_of_mem _ hp
      · simp [KMap.eraseK, h0] at hp
        rcases hp with h | h
        · simp [h]
        · exact List.mem_cons_of_mem _ (ih h)

theorem KMap.lookupK_eq_none_of_not_mem {α : Type} (l : KMap α) (k : String)
    (h : k ∉ l.map Prod.fst) : l.lookupK k = none := by
  induction l with
  | nil => rfl
  | cons hd tl ih =>
      obtain ⟨k₀, w⟩ := hd
      rw [List.map_cons, List.mem_cons] at h
      push_neg at h
      have h0 : ¬ k₀ = k := fun e => h.1 e.symm
      simp [KMap.lookupK, h0, ih h.2]

theorem KMap.mem_keys_setK {α : Type} (l : KMap α) (k k' : String) (v : α)
    (h : k' ∈ (l.setK k v).map Prod.fst) : k' ∈ l.map Prod.fst ∨ k' = k := by
  rcases List.mem_map.mp h with ⟨p, hp, hpk⟩
  rcases KMap.mem_setK l k v p hp with h1 | h1
  · exact Or.inr (by rw [← hpk, h1])
  · exact Or.inl (hpk ▸ List.mem_map_of_mem Prod.fst h1)

theorem KMap.mem_keys_eraseK {α : Type} (l : KMap α) (k k' : String)
    (h : k' ∈ (l.eraseK k).map Prod.fst) : k' ∈ l.map Prod.fst := by
  rcases List.mem_map.mp h with ⟨p, hp, hpk⟩
  exact hpk ▸ List.mem_map_of_mem Prod.fst (KMap.mem_eraseK l k p hp)

theorem KMap.keys_nodup_setK {α : Type} (l : KMap α) (k : String) (v : α)
    (h : (l.map Prod.fst).Nodup) : ((l.setK k v).map Prod.fst).Nodup := by
  induction l with
  | nil => simp [KMap.setK]
  | cons hd tl ih =>
      obtain ⟨k₀, w⟩ := hd
      rw [List.map_cons, List.nodup_cons] at h
      by_cases h0 : k₀ = k
      · subst h0
        rw [show KMap.setK ((k₀, w) :: tl) k₀ v = (k₀, v) :: tl by simp [KMap.setK]]
        rw [List.map_cons, List.nodup_cons]
        exact h
      · rw [show KMap.setK ((k₀, w) :: tl) k v = (k₀, w) :: KMap.setK tl k v by
          simp [KMap.setK, h0]]
        rw [List.map_cons, List.nodup_cons]
        refine ⟨fun hk1 => ?_, ih h.2⟩
        rcases KMap.mem_keys_setK tl k k₀ v hk1 with hm | hm
        · exact h.1 hm
        · exact h0 hm

theorem KMap.keys_nodup_eraseK {α : Type} (l : KMap α) (k : String)
    (h : (l.map Prod.fst).Nodup) : ((l.eraseK k).map Prod.fst).Nodup := by
  induction l with
  | nil => simp [KMap.eraseK]
  | cons hd tl ih =>
      obtain ⟨k₀, w⟩ := hd
      rw [List.map_cons, List.nodup_cons] at h
      by_cases h0 : k₀ = k
      · rw [show KMap.eraseK ((k₀, w) :: tl) k = tl by simp [KMap.eraseK, h0]]
        exact h.2
      · rw [show KMap.eraseK ((k₀, w) :: tl) k = (k₀, w) :: KMap.eraseK tl k by
          simp [KMap.eraseK, h0]]
        rw [List.map_cons, List.nodup_cons]
        exact ⟨fun hk1 => h.1 (KMap.mem_keys_eraseK tl k k₀ hk1), ih h.2⟩

theorem KMap.lookupK_eraseK_self {α : Type} (l : KMap α) (k : String)
    (h : (l.map Prod.fst).Nodup) : (l.eraseK k).lookupK k = none := by
  induction l with
  | nil => rfl
  | cons hd tl ih =>
      obtain ⟨k₀, w⟩ := hd
      rw [List.map_cons, List.nodup_cons] at h
      by_cases h0 : k₀ = k
      · subst h0
        rw [show KMap.eraseK ((k₀, w) :: tl) k₀ = tl by simp [KMap.eraseK]]
        exact KMap.lookupK_eq_none_of_not_mem tl k₀ h.1
      · rw [show KMap.eraseK ((k₀, w) :: tl) k = (k₀, w) :: KMap.eraseK tl k by
          simp [KMap.eraseK, h0]]
        simp [KMap.lookupK, h0, ih h.2]

/-- Abstract interface of the external rule engine (`chess.js`). -/
structure Engine (Board : Type) where
  init : Board
  turn : Board → Color
  move : Board → MoveArg → Option Board
  gameOver : Board → Bool
  inCheckmate : Board → Bool
  fen : Board → String
  pgn : Board → String

/-- Executable toy board for concrete evaluation: the board records the
exact move arguments the server passed to the engine, and the side to move
alternates with the number of applied moves. -/
structure ToyBoard where
  hist : List MoveArg
deriving DecidableEq, Repr

def toyE : Engine ToyBoard where
  init := ⟨[]⟩
  turn := fun b => if b.hist.length % 2 = 0 then Color.white else Color.black
  move := fun b m => if m.mfrom = m.mto then none else some ⟨b.hist ++ [m]⟩
  gameOver := fun _ => false
  inCheckmate := fun _ => false
  fen := fun b => toString b.hist.length
  pgn := fun b => toString b.hist.length

/-- `Number(x) || 300`: a missing or zero requested duration falls back to
the 300-second default; any other numeric value is used as given. -/
def numberOr300 : Option Int → Int
  | none => 300
  | some n => if n = 0 then 300 else n

/-- `String(text || '')`: a missing text becomes the empty string. -/
def jsText : Option String → String
  | none => ""
  | some s => s

/-- `.slice(0, n)` on a string: the prefix of at most `n` characters. -/
def jsSlice (s : String) (n : Nat) : String := String.mk (s.data.take n)

theorem jsSlice_length_le (s : String) (n : Nat) : (jsSlice s n).length ≤ n := by
  simp only [jsSlice, String.length]
  exact le_trans (Nat.le_of_eq (List.length_take n s.data)) (min_le_left n _)

/-- `x || dflt` on strings: a missing or empty string becomes `dflt`. -/
def jsStrOr (s : Option String) (dflt : String) : String :=
  match s with
  | none => dflt
  | some s => if s = "" then dflt else s

namespace SioRec

/-- One entry of `room.players` in the reconnect-capable socket.io server
(part_000 lines 476–496): a seat with a stable player id surviving
reconnects. -/
structure Player where
  pid : String
  socketId : Option String
  name : String
  color : Color
  connected : Bool
deriving DecidableEq, Repr

/-- A room of the reconnect-capable socket.io server.  `timerOn` models
`timerInterval !== null` (an active setInterval tick source). -/
structure Room (Board : Type) where
  chess : Board
  players : KMap Player
  order : List String
  timers : Timers
  timerOn : Bool
  turnStartTs : Option Int
deriving DecidableEq, Repr

abbrev Reg (Board : Type) : Type := KMap (Room Board)

/-- The mutable fields the server stores on each socket.io socket object. -/
structure Sock where
  sid : String
  roomId : Option String
  playerId : Option String
  color : Option Color
deriving DecidableEq, Repr

variable {Board : Type}

/-- `makeRoom(initialSeconds)` (lines 487–496). -/
def makeRoom (E : Engine Board) (initialSeconds : Int) : Room Board :=
  { chess := E.init
    players := []
    order := []
    timers := { white := initialSeconds, black := initialSeconds }
    timerOn := false
    turnStartTs := none }

/-- `room.order.map(id => room.players[id].name)`. -/
def namesOf (room : Room Board) : List String :=
  room.order.map (fun id => ((room.players.lookupK id).map Player.name).getD "")

/-- `startTimerLoop(roomId)` (lines 506–529): idempotent start of the tick
source; sets the turn epoch only when actually starting. -/
def startTimerLoop (reg : Reg Board) (rid : String) (now : Int) : Reg Board :=
  match reg.lookupK rid with
  | none => reg
  | some room =>
      if room.timerOn then reg
      else reg.setK rid { room with turnStartTs := some now, timerOn := true }

/-- `stopTimerLoop(roomId)` (lines 531–539): cancels the tick source and
nulls the turn epoch. -/
def stopTimerLoop (reg : Reg Board) (rid : String) : Reg Board :=
  match reg.lookupK rid with
  | none => reg
  | some room => reg.setK rid { room with timerOn := false, turnStartTs := none }

/-- `clearRoom(roomId)` (lines 541–546): stop ticking, then delete. -/
def clearRoom (reg : Reg Board) (rid : String) : Reg Board :=
  match reg.lookupK rid with
  | none => reg
  | some _ => (stopTimerLoop reg rid).eraseK rid

/-- The reconnection mutation of lines 570–572: reattach the socket to the
existing seat (`playerObj.socketId = socket.id; playerObj.connected =
true`), leaving every other room field untouched. -/
def rebind (room : Room Board) (pid : String) (sid : String) (p : Player) :
    Room Board :=
  { room with players :=
      room.players.setK pid { p with socketId := some sid, connected := true } }

/-- `socket.on('join')` (lines 553–627).  `freshPid` stands for the
`uuidv4()` value generated in the new-join path, `now` for `Date.now()`. -/
def join (E : Engine Board) (reg : Reg Board) (sock : Sock)
    (roomId : Option String) (name : Option String) (desiredTime : Option Int)
    (incomingPid : Option String) (freshPid : String) (now : Int) :
    Reg Board × Sock × List (Dest × Ev) :=
  match roomId with
  | none => (reg, sock, [(Dest.toSelf, Ev.errMsg "roomId required")])
  | some rid =>
    let init : Reg Board × Room Board :=
      match reg.lookupK rid with
      | some room => (reg, room)
      | none =>
          let room := makeRoom E (numberOr300 desiredTime)
          (reg.setK rid room, room)
    let reg1 := init.1
    let room := init.2
    let reconnectTarget : Option (String × Player) :=
      match incomingPid with
      | none => none
      | some pid =>
          match room.players.lookupK pid with
          | none => none
          | some p => if p.connected then none else some (pid, p)
    match reconnectTarget with
    | some (pid, p) =>
        let room' := rebind room pid sock.sid p
        let sock' := { sock with roomId := some rid, playerId := some pid,
                                 color := some p.color }
        (reg1.setK rid room', sock',
          [(Dest.toSelf,
            Ev.joinedD pid p.color (E.fen room'.chess) room'.timers (namesOf room')),
           (Dest.toRoom, Ev.reconnected pid p.name p.color)])
    | none =>
        if room.players.length ≥ 2 then
          (reg1, sock, [(Dest.toSelf, Ev.errMsg "room full")])
        else
          let pid := freshPid
          let color := if room.players.length = 0 then Color.white else Color.black
          let playerName := jsStrOr name "Guest"
          let player : Player :=
            { pid := pid, socketId := some sock.sid, name := playerName,
              color := color, connected := true }
          let room' := { room with players := room.players.setK pid player,
                                   order := room.order ++ [pid] }
          let reg2 := reg1.setK rid room'
          let sock' := { sock with roomId := some rid, playerId := some pid,
                                   color := some color }
          let joinedEv :=
            (Dest.toSelf,
             Ev.joinedD pid color (E.fen room'.chess) room'.timers (namesOf room'))
          if room'.players.length = 2 then
            (startTimerLoop reg2 rid now, sock',
              [joinedEv,
               (Dest.toRoom,
                Ev.startD (E.fen room'.chess) room'.timers (E.turn room'.chess)
                  (namesOf room')),
               (Dest.toOthers, Ev.playerJoinedD pid playerName color)])
          else
            (reg2, sock',
              [joinedEv,
               (Dest.toSelf, Ev.waiting "Waiting for opponent..."),
               (Dest.toOthers, Ev.playerJoinedD pid playerName color)])

/-- `room.timers[c] = Math.max(0, room.timers[c] - amt)`: deduct `amt`
seconds from the clock of color `c`, clamping at zero. -/
def deduct (room : Room Board) (c : Color) (amt : Int) : Room Board :=
  { room with timers := room.timers.set c (max 0 (room.timers.get c - amt)) }

/-- `socket.on('move')` (lines 630–684).  The elapsed-time deduction at
lines 645–651 happens before the engine is consulted; the 30-second
post-gameover `setTimeout(clearRoom)` is a delayed action not part of the
immediate handler effect. -/
def move (E : Engine Board) (reg : Reg Board) (sock : Sock)
    (mfrom mto : String) (promo : Option Char) (now : Int) :
    Reg Board × List (Dest × Ev) :=
  match sock.roomId with
  | none => (reg, [(Dest.toSelf, Ev.errMsg "not in room")])
  | some rid =>
  match reg.lookupK rid with
  | none => (reg, [(Dest.toSelf, Ev.errMsg "room not found")])
  | some room =>
  match sock.playerId.bind room.players.lookupK with
  | none => (reg, [(Dest.toSelf, Ev.errMsg "player not found")])
  | some player =>
    let expected := E.turn room.chess
    if player.color ≠ expected then
      (reg, [(Dest.toSelf, Ev.invalid "not your turn")])
    else
      let room1 : Room Board :=
        match room.turnStartTs with
        | none => room
        | some ts => deduct room expected (Int.fdiv (now - ts) 1000)
      match E.move room1.chess ⟨mfrom, mto, some (promo.getD 'q')⟩ with
      | none => (reg.setK rid room1, [(Dest.toSelf, Ev.invalid "illegal move")])
      | some b' =>
          let fen := E.fen b'
          let pgn := E.pgn b'
          let room2 := { room1 with chess := b', turnStartTs := some now }
          let reg2 := startTimerLoop (stopTimerLoop (reg.setK rid room2) rid) rid now
          let evs := [(Dest.toRoom, Ev.moveD fen pgn (E.turn b') room2.timers)]
          if E.gameOver b' then
            (reg2, evs ++
              [(Dest.toRoom,
                Ev.gameoverEv (if E.inCheckmate b' then "checkmate" else "draw")
                  fen pgn)])
          else (reg2, evs)

/-- `(room.players[socket.playerId] && room.players[socket.playerId].name) || 'Guest'`. -/
def chatSender (room : Room Board) (sock : Sock) : String :=
  jsStrOr ((sock.playerId.bind room.players.lookupK).map Player.name) "Guest"

/-- `socket.on('chat')` (lines 686–696): truncates to 400 characters and
broadcasts; this variant keeps no chat log. -/
def chat (reg : Reg Board) (sock : Sock) (text : Option String) :
    List (Dest × Ev) :=
  match sock.roomId with
  | none => []
  | some rid =>
  match reg.lookupK rid with
  | none => []
  | some room =>
      [(Dest.toRoom, Ev.chatEv (chatSender room sock) (jsSlice (jsText text) 400))]

/-- `socket.on('resign')` (lines 698–707). -/
def resign (reg : Reg Board) (sock : Sock) : Reg Board × List (Dest × Ev) :=
  match sock.roomId with
  | none => (reg, [])
  | some rid =>
  match reg.lookupK rid with
  | none => (reg, [])
  | some room =>
  match sock.playerId.bind room.players.lookupK with
  | none => (reg, [])
  | some loser =>
      (clearRoom reg rid, [(Dest.toRoom, Ev.resignEv loser.color.other)])

/-- `socket.on('rematch')` (lines 709–720): resets the board, keeps the
current clock values, restarts the tick loop — with no check of the
room's game state. -/
def rematch (E : Engine Board) (reg : Reg Board) (sock : Sock) (now : Int) :
    Reg Board × List (Dest × Ev) :=
  match sock.roomId with
  | none => (reg, [])
  | some rid =>
  match reg.lookupK rid with
  | none => (reg, [])
  | some room =>
      let room1 := { room with chess := E.init, turnStartTs := some now }
      let reg2 := startTimerLoop (stopTimerLoop (reg.setK rid room1) rid) rid now
      (reg2, [(Dest.toRoom, Ev.rematchD (E.fen E.init) room1.timers)])

/-- The disconnect mutation of lines 731–733: keep the seat but mark it
disconnected (`player.connected = false; player.socketId = null`). -/
def markDisconnected (room : Room Board) (pid : String) (p : Player) :
    Room Board :=
  { room with players :=
      room.players.setK pid { p with connected := false, socketId := none } }

/-- `socket.on('disconnect')` (lines 722–744): mark the seat disconnected
and keep it; remove the room at once when no connected seat remains. -/
def disconnect (reg : Reg Board) (sock : Sock) : Reg Board × List (Dest × Ev) :=
  match sock.roomId with
  | none => (reg, [])
  | some rid =>
  match reg.lookupK rid with
  | none => (reg, [])
  | some room =>
  match room.players.find? (fun q => q.2.socketId == some sock.sid) with
  | none => (reg, [])
  | some (pid, p) =>
      let room' := markDisconnected room pid p
      let reg1 := reg.setK rid room'
      let evs := [(Dest.toOthers, Ev.peerLeftInfo pid p.name p.color)]
      if (room'.players.filter (fun q => q.2.connected)).length = 0 then
        (clearRoom reg1 rid, evs)
      else (reg1, evs)

/-- The body of the `setInterval` callback installed by `startTimerLoop`
(lines 513–528): fixed one-second decrement of the side-to-move's clock,
then the timeout check. -/
def tick (E : Engine Board) (reg : Reg Board) (rid : String) :
    Reg Board × List (Dest × Ev) :=
  match reg.lookupK rid with
  | none => (reg, [])
  | some room =>
      let ct := E.turn room.chess
      let t := room.timers.get ct
      let timers' := if 0 < t then room.timers.set ct (max 0 (t - 1)) else room.timers
      let room1 := { room with timers := timers' }
      let reg1 := reg.setK rid room1
      let evs := [(Dest.toRoom, Ev.timersEv timers' ct)]
      if timers'.get ct ≤ 0 then
        (clearRoom reg1 rid, evs ++ [(Dest.toRoom, Ev.timeoutsEv ct.other)])
      else (reg1, evs)

end SioRec

namespace WsUuid

/-- A player entry of the `ws` + `uuid` server (part_000 line 9): keyed in
`room.players` by the per-session `ws.id`. -/
structure Player where
  name : String
  color : Color
deriving DecidableEq, Repr

/-- A chat-log entry `{ sender, text, ts }` (line 104). -/
structure ChatMsg where
  sender : String
  text : String
  ts : Int
deriving DecidableEq, Repr

/-- A room of the `ws` + `uuid` server (line 38).  `pgn` is unset until the
first applied move writes it (line 87). -/
structure Room (Board : Type) where
  players : KMap Player
  order : List String
  chess : Board
  chat : List ChatMsg
  createdAt : Int
  fen : String
  pgn : Option String
deriving DecidableEq, Repr

abbrev Reg (Board : Type) : Type := KMap (Room Board)

/-- Fields the server stores on each `ws` connection (`ws.id`, `ws.room`,
`ws.playerId`). -/
structure Sock where
  sid : String
  room : Option String
  playerId : Option String
deriving DecidableEq, Repr

variable {Board : Type}

/-- The `move` branch (lines 68–96): turn check, then the raw client move
object is handed to the engine with no promotion defaulting. -/
def move (E : Engine Board) (reg : Reg Board) (ws : Sock) (arg : MoveArg) :
    Reg Board × List (Dest × Ev) :=
  match ws.room with
  | none => (reg, [(Dest.toSelf, Ev.errMsg "not in room")])
  | some roomId =>
  match reg.lookupK roomId with
  | none => (reg, [(Dest.toSelf, Ev.errMsg "room not found")])
  | some r =>
  match ws.playerId.bind r.players.lookupK with
  | none => (reg, [(Dest.toSelf, Ev.errMsg "player not found")])
  | some player =>
    let expectedColor := E.turn r.chess
    if player.color ≠ expectedColor then
      (reg, [(Dest.toSelf, Ev.errMsg "not your turn")])
    else
      match E.move r.chess arg with
      | none => (reg, [(Dest.toSelf, Ev.invalid "illegal move")])
      | some b' =>
          let r' := { r with chess := b', fen := E.fen b', pgn := some (E.pgn b') }
          let reg' := reg.setK roomId r'
          let evs := [(Dest.toRoom, Ev.moveA (E.fen b') (E.pgn b') (E.turn b'))]
          if E.gameOver b' then
            (reg', evs ++
              [(Dest.toRoom,
                Ev.gameoverEv (if E.inCheckmate b' then "checkmate" else "draw")
                  (E.fen b') (E.pgn b'))])
          else (reg', evs)

/-- `(r.players[ws.playerId] && r.players[ws.playerId].name) || 'Guest'`. -/
def chatSender (r : Room Board) (ws : Sock) : String :=
  jsStrOr ((ws.playerId.bind r.players.lookupK).map Player.name) "Guest"

/-- The `chat` branch (lines 99–107): truncate to 400 characters, append
to the room's chat log, broadcast. -/
def chat (reg : Reg Board) (ws : Sock) (text : Option String) (now : Int) :
    Reg Board × List (Dest × Ev) :=
  match ws.room with
  | none => (reg, [])
  | some roomId =>
  match reg.lookupK roomId with
  | none => (reg, [])
  | some r =>
      let msgObj : ChatMsg :=
        { sender := chatSender r ws, text := jsSlice (jsText text) 400, ts := now }
      (reg.setK roomId { r with chat := r.chat ++ [msgObj] },
       [(Dest.toRoom, Ev.chatEv (chatSender r ws) (jsSlice (jsText text) 400))])

/-- The `rematch` branch (lines 134–142): resets board, fen and pgn and
broadcasts — with no check of the room's game state. -/
def rematch (E : Engine Board) (reg : Reg Board) (ws : Sock) :
    Reg Board × List (Dest × Ev) :=
  match ws.room with
  | none => (reg, [])
  | some roomId =>
  match reg.lookupK roomId with
  | none => (reg, [])
  | some r =>
      let r' := { r with chess := E.init, fen := E.fen E.init, pgn := some "" }
      (reg.setK roomId r', [(Dest.toRoom, Ev.rematchA (E.fen E.init))])

end WsUuid

namespace SioTimers

/-- A player entry of the timers socket.io server (line 206), keyed by
`socket.id`. -/
structure Player where
  id : String
  name : String
  color : Color
deriving DecidableEq, Repr

/-- A room of the timers socket.io server (lines 185–188).  `timerOn`
models `timerInterval != null`, `timerRunning` the separate flag the code
keeps beside it. -/
structure Room (Board : Type) where
  chess : Board
  players : KMap Player
  order : List String
  timers : Timers
  timerRunning : Bool
  timerOn : Bool
  turnStartTs : Option Int
deriving DecidableEq, Repr

abbrev Reg (Board : Type) : Type := KMap (Room Board)

/-- Fields stored on the socket (`socket.roomId`, `socket.color`). -/
structure Sock where
  sid : String
  roomId : Option String
  color : Option Color
deriving DecidableEq, Repr

variable {Board : Type}

/-- `makeRoom(roomId, initialSeconds)` (lines 185–188). -/
def makeRoom (E : Engine Board) (initialSeconds : Int) : Room Board :=
  { chess := E.init
    players := []
    order := []
    timers := { white := initialSeconds, black := initialSeconds }
    timerRunning := false
    timerOn := false
    turnStartTs := none }

/-- `startTimers(roomId)` (lines 315–321, excluding the interval body):
always refresh the turn-start epoch, then start the interval only when not
already running. -/
def startTimers (reg : Reg Board) (rid : String) (now : Int) : Reg Board :=
  match reg.lookupK rid with
  | none => reg
  | some r =>
      let r1 := { r with turnStartTs := some now }
      if r1.timerRunning then reg.setK rid r1
      else reg.setK rid { r1 with timerRunning := true, timerOn := true }

/-- `stopTurnTimerUpdate(roomId)` (lines 342–348). -/
def stopTurnTimerUpdate (reg : Reg Board) (rid : String) : Reg Board :=
  match reg.lookupK rid with
  | none => reg
  | some r =>
      if r.timerOn then reg.setK rid { r with timerOn := false, timerRunning := false }
      else reg

/-- The body of the `setInterval` callback of `startTimers` (lines
323–339): deducts the elapsed wall-clock whole seconds since the last tick
from the side-to-move's clock, then checks for timeout (`clearInterval`
plus `clearRoom`, which deletes the room). -/
def tick (E : Engine Board) (reg : Reg Board) (rid : String) (now : Int) :
    Reg Board × List (Dest × Ev) :=
  match reg.lookupK rid with
  | none => (reg, [])
  | some r =>
      let currentTurn := E.turn r.chess
      let elapsed := Int.fdiv (now - r.turnStartTs.getD 0) 1000
      let timers' :=
        r.timers.set currentTurn (max 0 (r.timers.get currentTurn - elapsed))
      let r1 := { r with timers := timers', turnStartTs := some now }
      let reg1 := reg.setK rid r1
      let evs := [(Dest.toRoom, Ev.timersEv timers' currentTurn)]
      if timers'.get currentTurn ≤ 0 then
        (reg1.eraseK rid, evs ++ [(Dest.toRoom, Ev.timeoutsEv currentTurn.other)])
      else (reg1, evs)

/-- `socket.on('move')` (lines 227–254): turn check, promotion defaulted
to queen, then interval stop and (unless the game ended) restart. -/
def move (E : Engine Board) (reg : Reg Board) (sock : Sock)
    (mfrom mto : String) (promo : Option Char) (now : Int) :
    Reg Board × List (Dest × Ev) :=
  match sock.roomId with
  | none => (reg, [])
  | some rid =>
  match reg.lookupK rid with
  | none => (reg, [])
  | some r =>
  match r.players.lookupK sock.sid with
  | none => (reg, [(Dest.toSelf, Ev.errMsg "player not found")])
  | some player =>
    let expected := E.turn r.chess
    if player.color ≠ expected then
      (reg, [(Dest.toSelf, Ev.invalid "not your turn")])
    else
      match E.move r.chess ⟨mfrom, mto, some (promo.getD 'q')⟩ with
      | none => (reg, [(Dest.toSelf, Ev.invalid "illegal move")])
      | some b' =>
          let reg1 := reg.setK rid { r with chess := b' }
          let reg2 := stopTurnTimerUpdate reg1 rid
          let timersNow :=
            (((reg2.lookupK rid).map Room.timers).getD r.timers)
          let evs := [(Dest.toRoom, Ev.moveD (E.fen b') (E.pgn b') (E.turn b') timersNow)]
          if E.gameOver b' then
            (reg2, evs ++
              [(Dest.toRoom,
                Ev.gameoverEv (if E.inCheckmate b' then "checkmate" else "draw")
                  (E.fen b') (E.pgn b'))])
          else (startTimers reg2 rid now, evs)

/-- `socket.on('chat')` (lines 256–262): relays the text as given, with no
truncation and no chat log. -/
def chat (reg : Reg Board) (sock : Sock) (text : Option String) :
    List (Dest × Ev) :=
  match sock.roomId with
  | none => []
  | some rid =>
  match reg.lookupK rid with
  | none => []
  | some r =>
      let sender := jsStrOr ((r.players.lookupK sock.sid).map Player.name) "Guest"
      [(Dest.toRoom, Ev.chatRawEv sender text)]

end SioTimers

namespace WsMin

/-- A room of the minimal `ws` server (line 381): just the connections,
the board and the names. -/
structure Room (Board : Type) where
  players : List String
  chess : Board
  names : List String
deriving DecidableEq, Repr

abbrev Reg (Board : Type) : Type := KMap (Room Board)

/-- Fields the server stores on each `ws` connection (`ws.room`,
`ws.playerIndex`). -/
structure Sock where
  sid : String
  room : Option String
  playerIndex : Option Nat
deriving DecidableEq, Repr

variable {Board : Type}

/-- The `move` branch (lines 405–427): the client move object is validated
by the engine only — there is no turn check and no promotion defaulting. -/
def move (E : Engine Board) (reg : Reg Board) (ws : Sock) (arg : MoveArg) :
    Reg Board × List (Dest × Ev) :=
  match ws.room with
  | none => (reg, [(Dest.toSelf, Ev.errMsg "not in room")])
  | some rid =>
  match reg.lookupK rid with
  | none => (reg, [(Dest.toSelf, Ev.errMsg "room not found")])
  | some r =>
      match E.move r.chess arg with
      | none => (reg, [(Dest.toSelf, Ev.invalid "illegal move")])
      | some b' =>
          let reg' := reg.setK rid { r with chess := b' }
          let evs := [(Dest.toRoom, Ev.moveC (E.fen b') (E.pgn b'))]
          if E.gameOver b' then
            (reg', evs ++
              [(Dest.toRoom,
                Ev.gameoverEv (if E.inCheckmate b' then "checkmate" else "draw")
                  (E.fen b') (E.pgn b'))])
          else (reg', evs)

/-- The `ws.on('close')` handler (lines 438–446): notify the other player,
then delete the room unconditionally and immediately. -/
def close (reg : Reg Board) (ws : Sock) : Reg Board × List (Dest × Ev) :=
  match ws.room with
  | none => (reg, [])
  | some rid =>
  match reg.lookupK rid with
  | none => (reg, [])
  | some _ => (reg.eraseK rid, [(Dest.toOthers, Ev.peerLeft)])

end WsMin

@[simp]
theorem Timers.get_set_self (t : Timers) (c : Color) (v : Int) :
    (t.set c v).get c = v := by
  cases c <;> rfl

theorem Timers.nonneg_set_max (t : Timers) (c : Color) (x : Int)
    (h : 0 ≤ t.white ∧ 0 ≤ t.black) :
    0 ≤ (t.set c (max 0 x)).white ∧ 0 ≤ (t.set c (max 0 x)).black := by
  cases c
  · exact ⟨by simp [Timers.set], by simpa [Timers.set] using h.2⟩
  · exact ⟨by simpa [Timers.set] using h.1, by simp [Timers.set]⟩

/-! Concrete fixtures for witnesses and counterexamples, built over the
executable toy engine. -/

def pWhite : SioRec.Player :=
  { pid := "p1", socketId := some "s1", name := "alice",
    color := Color.white, connected := true }

def pBlack : SioRec.Player :=
  { pid := "p2", socketId := some "s2", name := "bob",
    color := Color.black, connected := true }

def pBlackDisc : SioRec.Player :=
  { pBlack with socketId := none, connected := false }

/-- A fresh two-seat playing room of the reconnect variant, both seats
connected, five-minute clocks, ticking, epoch at time 0. -/
def roomD0 : SioRec.Room ToyBoard :=
  { chess := ⟨[]⟩
    players := [("p1", pWhite), ("p2", pBlack)]
    order := ["p1", "p2"]
    timers := ⟨300, 300⟩
    timerOn := true
    turnStartTs := some 0 }

/-- Same room with the black seat disconnected. -/
def roomD1 : SioRec.Room ToyBoard :=
  { roomD0 with players := [("p1", pWhite), ("p2", pBlackDisc)] }

/-- Same room mid-game: one move has been applied, black to move, and the
game is not over. -/
def roomD2 : SioRec.Room ToyBoard :=
  { roomD0 with chess := ⟨[⟨"e2", "e4", none⟩]⟩ }

def regD0 : SioRec.Reg ToyBoard := [("r1", roomD0)]

def regD1 : SioRec.Reg ToyBoard := [("r1", roomD1)]

def regD2 : SioRec.Reg ToyBoard := [("r1", roomD2)]

def sockW : SioRec.Sock :=
  { sid := "s1", roomId := some "r1", playerId := some "p1",
    color := some Color.white }

def sockB : SioRec.Sock :=
  { sid := "s2", roomId := some "r1", playerId := some "p2",
    color := some Color.black }

def sockNew : SioRec.Sock :=
  { sid := "s3", roomId := none, playerId := none, color := none }

def roomC0 : WsMin.Room ToyBoard :=
  { players := ["c1", "c2"], chess := ⟨[]⟩, names := ["alice", "bob"] }

def regC0 : WsMin.Reg ToyBoard := [("r1", roomC0)]

/-- The second (black) seat's connection in the minimal ws room. -/
def sockC2 : WsMin.Sock :=
  { sid := "c2", room := some "r1", playerIndex := some 1 }

def roomA0 : WsUuid.Room ToyBoard :=
  { players := [("w1", { name := "alice", color := Color.white }),
                ("w2", { name := "bob", color := Color.black })]
    order := ["w1", "w2"]
    chess := ⟨[]⟩
    chat := []
    createdAt := 0
    fen := "0"
    pgn := none }

def regA0 : WsUuid.Reg ToyBoard := [("r1", roomA0)]

def wsA1 : WsUuid.Sock := { sid := "w1", room := some "r1", playerId := some "w1" }

def roomB0 : SioTimers.Room ToyBoard :=
  { chess := ⟨[]⟩
    players := [("t1", { id := "t1", name := "alice", color := Color.white }),
                ("t2", { id := "t2", name := "bob", color := Color.black })]
    order := ["t1", "t2"]
    timers := ⟨300, 300⟩
    timerRunning := true
    timerOn := true
    turnStartTs := some 0 }

def regB0 : SioTimers.Reg ToyBoard := [("r1", roomB0)]

def sockB1 : SioTimers.Sock :=
  { sid := "t1", roomId := some "r1", color := some Color.white }

/-- A 401-character chat text. -/
def longText : String := String.mk (List.replicate 401 'a')

/-- C10 counterexample: in the `ws` + `uuid` variant a move command that
omits the promotion field is handed to the engine with no promotion at all
(the toy board records the argument verbatim), not with promotion `q`. -/
theorem C10_counterexample :
    ((WsUuid.move toyE regA0 wsA1 ⟨"e7", "e8", none⟩).1.lookupK "r1").map
        (fun r => r.chess) = some ⟨[⟨"e7", "e8", none⟩]⟩ ∧
    (⟨"e7", "e8", none⟩ : MoveArg).promo ≠ some 'q' := by
  constructor
  · decide
  · decide

/-- C10 (amended): in the two socket.io variants a move command omitting
the promotion field behaves exactly as one explicitly requesting a queen
promotion (`payload.promotion || 'q'`); the two `ws` variants instead pass
the client move object to the engine verbatim, with no defaulting. -/
theorem C10_promotion_default_q {Board : Type} (E : Engine Board)
    (regR : SioRec.Reg Board) (sockR : SioRec.Sock)
    (regT : SioTimers.Reg Board) (sockT : SioTimers.Sock)
    (mfrom mto : String) (now : Int) :
    SioRec.move E regR sockR mfrom mto none now =
      SioRec.move E regR sockR mfrom mto (some 'q') now ∧
    SioTimers.move E regT sockT mfrom mto none now =
      SioTimers.move E regT sockT mfrom mto (some 'q') now :=
  ⟨rfl, rfl⟩

set_option maxRecDepth 4000 in
/-- C9 counterexample: the timers socket.io variant broadcasts a
401-character chat text unchanged — no truncation to 400 characters. -/
theorem C9_counterexample :
    SioTimers.chat regB0 sockB1 (some longText) =
      [(Dest.toRoom, Ev.chatRawEv "alice" (some longText))] ∧
    longText.length = 401 := by
  constructor
  · decide
  · decide

/-- C9 (amended): in the `ws` + `uuid` variant the chat text is truncated
to at most 400 characters, stored truncated in the chat log, and broadcast
truncated; in the reconnect socket.io variant it is broadcast truncated
(that variant keeps no chat log); the timers socket.io variant relays chat
untruncated. -/
theorem C9_chat_truncation {Board : Type}
    (regA : WsUuid.Reg Board) (wsA : WsUuid.Sock) (ridA : String)
    (rA : WsUuid.Room Board)
    (regR : SioRec.Reg Board) (sockR : SioRec.Sock) (ridR : String)
    (roomR : SioRec.Room Board)
    (text : Option String) (now : Int)
    (ha1 : wsA.room = some ridA) (ha2 : regA.lookupK ridA = some rA)
    (hr1 : sockR.roomId = some ridR) (hr2 : regR.lookupK ridR = some roomR) :
    (WsUuid.chat regA wsA text now =
      (regA.setK ridA
        { rA with chat :=
            rA.chat ++ [⟨WsUuid.chatSender rA wsA, jsSlice (jsText text) 400, now⟩] },
       [(Dest.toRoom,
         Ev.chatEv (WsUuid.chatSender rA wsA) (jsSlice (jsText text) 400))])) ∧
    (SioRec.chat regR sockR text =
      [(Dest.toRoom,
        Ev.chatEv (SioRec.chatSender roomR sockR) (jsSlice (jsText text) 400))]) ∧
    (jsSlice (jsText text) 400).length ≤ 400 := by
  refine ⟨?_, ?_, jsSlice_length_le _ _⟩
  · simp [WsUuid.chat, ha1, ha2]
  · simp [SioRec.chat, hr1, hr2]

/-- C9 witness: concrete instantiation of the truncation theorem on the
uuid-variant and reconnect-variant fixtures. -/
theorem C9_witness :
    (WsUuid.chat regA0 wsA1 (some "hello") 9 =
      (regA0.setK "r1"
        { roomA0 with chat := roomA0.chat ++ [⟨"alice", "hello", 9⟩] },
       [(Dest.toRoom, Ev.chatEv "alice" "hello")])) ∧
    (SioRec.chat regD0 sockW (some "hello") =
      [(Dest.toRoom, Ev.chatEv "alice" "hello")]) := by
  have h := C9_chat_truncation regA0 wsA1 "r1" roomA0 regD0 sockW "r1" roomD0
    (some "hello") 9 rfl (by decide) rfl (by decide)
  exact ⟨h.1, h.2.1⟩

/-- C3 counterexample: in the reconnect socket.io variant, with the turn
epoch two wall-clock seconds in the past, a tick still deducts exactly one
second from the side-to-move's clock (300 → 299), not the elapsed two. -/
theorem C3_counterexample :
    roomD0.turnStartTs = some 0 ∧
    ((SioRec.tick toyE regD0 "r1").1.lookupK "r1").map SioRec.Room.timers =
      some ⟨299, 300⟩ ∧
    roomD0.timers.white - 299 ≠ Int.fdiv (2000 - 0) 1000 := by
  refine ⟨rfl, by decide, by decide⟩

/-- C3 (amended): the timers socket.io variant's tick deducts exactly the
elapsed wall-clock whole seconds since the previous tick, while the
reconnect socket.io variant's tick deducts a fixed one second per firing,
independent of any elapsed time. -/
theorem C3_tick_deduction {Board : Type} (E : Engine Board)
    (regR : SioRec.Reg Board) (ridR : String) (roomR : SioRec.Room Board)
    (regT : SioTimers.Reg Board) (ridT : String) (roomT : SioTimers.Room Board)
    (ts now : Int)
    (h1 : regR.lookupK ridR = some roomR)
    (h2 : 1 < roomR.timers.get (E.turn roomR.chess))
    (h3 : regT.lookupK ridT = some roomT)
    (h4 : roomT.turnStartTs = some ts)
    (h5 : 0 < max 0 (roomT.timers.get (E.turn roomT.chess) - Int.fdiv (now - ts) 1000)) :
    ((SioRec.tick E regR ridR).1.lookupK ridR).map
        (fun r => r.timers.get (E.turn roomR.chess)) =
      some (roomR.timers.get (E.turn roomR.chess) - 1) ∧
    ((SioTimers.tick E regT ridT now).1.lookupK ridT).map
        (fun r => r.timers.get (E.turn roomT.chess)) =
      some (max 0 (roomT.timers.get (E.turn roomT.chess) - Int.fdiv (now - ts) 1000)) := by
  constructor
  · have ht : (0 : Int) < roomR.timers.get (E.turn roomR.chess) := by omega
    have hmax : max 0 (roomR.timers.get (E.turn roomR.chess) - 1) =
        roomR.timers.get (E.turn roomR.chess) - 1 := by omega
    have hpos : ¬ (roomR.timers.get (E.turn roomR.chess) - 1 ≤ 0) := by omega
    simp [SioRec.tick, h1, ht, hmax, hpos, KMap.lookupK_setK_self]
  · have hpos : ¬ (max 0 (roomT.timers.get (E.turn roomT.chess) -
        Int.fdiv (now - ts) 1000) ≤ 0) := by omega
    simp [SioTimers.tick, h3, h4, hpos, KMap.lookupK_setK_self]

/-- C3 witness: on the fixtures, one tick of the reconnect variant takes
white from 300 to 299, while a tick of the timers variant two seconds
after the epoch takes white from 300 to 298. -/
theorem C3_witness :
    ((SioRec.tick toyE regD0 "r1").1.lookupK "r1").map
        (fun r => r.timers.get (toyE.turn roomD0.chess)) = some 299 ∧
    ((SioTimers.tick toyE regB0 "r1" 2000).1.lookupK "r1").map
        (fun r => r.timers.get (toyE.turn roomB0.chess)) = some 298 := by
  have h := C3_tick_deduction toyE regD0 "r1" roomD0 regB0 "r1" roomB0 0 2000
    (by decide) (by decide) (by decide) rfl (by decide)
  exact ⟨h.1, h.2⟩

/-- C1 counterexample: in the reconnect socket.io variant, an illegal move
by the side to move (white, three wall-clock seconds after the turn epoch)
is answered with `invalid` only — but the room's clocks have already been
mutated: white's clock dropped from 300 to 297 before the legality check. -/
theorem C1_counterexample :
    (SioRec.move toyE regD0 sockW "e2" "e2" none 3000).2 =
      [(Dest.toSelf, Ev.invalid "illegal move")] ∧
    ((SioRec.move toyE regD0 sockW "e2" "e2" none 3000).1.lookupK "r1").map
        (fun r => r.timers) = some ⟨297, 300⟩ ∧
    roomD0.timers = ⟨300, 300⟩ := by
  refine ⟨by decide, by decide, rfl⟩

/-- C1 (amended): a move rejected by the server's turn check leaves the
registry byte-for-byte unchanged and reports `invalid` to the requester
only; a move rejected as illegal by the rule engine leaves the board and
history unchanged and reports `invalid` to the requester only, but the
moving side's clock keeps the elapsed-time deduction performed before the
legality check. -/
theorem C1_rejected_move_atomicity {Board : Type} (E : Engine Board)
    (reg : SioRec.Reg Board) (sock : SioRec.Sock) (rid pid : String)
    (room : SioRec.Room Board) (player : SioRec.Player) (ts : Int)
    (mfrom mto : String) (promo : Option Char) (now : Int)
    (hrid : sock.roomId = some rid)
    (hroom : reg.lookupK rid = some room)
    (hpid : sock.playerId = some pid)
    (hplayer : room.players.lookupK pid = some player) :
    (player.color ≠ E.turn room.chess →
      SioRec.move E reg sock mfrom mto promo now =
        (reg, [(Dest.toSelf, Ev.invalid "not your turn")])) ∧
    (player.color = E.turn room.chess →
      room.turnStartTs = some ts →
      E.move room.chess ⟨mfrom, mto, some (promo.getD 'q')⟩ = none →
      SioRec.move E reg sock mfrom mto promo now =
        (reg.setK rid
          (SioRec.deduct room (E.turn room.chess) (Int.fdiv (now - ts) 1000)),
         [(Dest.toSelf, Ev.invalid "illegal move")])) ∧
    (∀ c a, (SioRec.deduct room c a).chess = room.chess ∧
            (SioRec.deduct room c a).order = room.order) := by
  refine ⟨?_, ?_, fun c a => ⟨rfl, rfl⟩⟩
  · intro hne
    simp [SioRec.move, hrid, hroom, hpid, hplayer, hne]
  · intro heq hts hmv
    simp [SioRec.move, hrid, hroom, hpid, hplayer, heq, hts, SioRec.deduct, hmv]

/-- C1 witness: the atomicity theorem applied to the concrete
illegal-move scenario of the counterexample. -/
theorem C1_witness :
    pWhite.color = toyE.turn roomD0.chess ∧
    SioRec.move toyE regD0 sockW "e2" "e2" none 3000 =
      (regD0.setK "r1" (SioRec.deduct roomD0 (toyE.turn roomD0.chess) 3),
       [(Dest.toSelf, Ev.invalid "illegal move")]) := by
  refine ⟨by decide, ?_⟩
  have h := (C1_rejected_move_atomicity toyE regD0 sockW "r1" "p1" roomD0 pWhite 0
    "e2" "e2" none 3000 rfl (by decide) rfl (by decide)).2.1 (by decide) rfl (by decide)
  exact h

/-- C2 counterexample: in the minimal ws variant, white is to move but the
black-seated connection (player index 1) submits a move — and the server
applies it to the board instead of rejecting it: there is no server-side
turn check in that variant. -/
theorem C2_counterexample :
    toyE.turn roomC0.chess = Color.white ∧
    sockC2.playerIndex = some 1 ∧
    WsMin.move toyE regC0 sockC2 ⟨"e2", "e4", none⟩ =
      (regC0.setK "r1" { roomC0 with chess := ⟨[⟨"e2", "e4", none⟩]⟩ },
       [(Dest.toRoom, Ev.moveC "1" "1")]) := by
  refine ⟨rfl, rfl, by decide⟩

/-- C2 (amended): the reconnect socket.io variant performs the
authoritative server-side turn check — a move whose requesting seat's
color differs from the engine's side-to-move is rejected with no mutation;
the minimal ws variant performs no turn check at all and applies any
engine-legal move whatever seat submits it. -/
theorem C2_turn_check {Board : Type} (E : Engine Board)
    (regD : SioRec.Reg Board) (sockD : SioRec.Sock) (ridD pidD : String)
    (roomD : SioRec.Room Board) (playerD : SioRec.Player)
    (mfrom mto : String) (promo : Option Char) (now : Int)
    (regC : WsMin.Reg Board) (wsC : WsMin.Sock) (ridC : String)
    (roomC : WsMin.Room Board) (b' : Board) (arg : MoveArg)
    (hd1 : sockD.roomId = some ridD) (hd2 : regD.lookupK ridD = some roomD)
    (hd3 : sockD.playerId = some pidD)
    (hd4 : roomD.players.lookupK pidD = some playerD)
    (hc1 : wsC.room = some ridC) (hc2 : regC.lookupK ridC = some roomC)
    (hmv : E.move roomC.chess arg = some b') (hgo : E.gameOver b' = false) :
    (playerD.color ≠ E.turn roomD.chess →
      SioRec.move E regD sockD mfrom mto promo now =
        (regD, [(Dest.toSelf, Ev.invalid "not your turn")])) ∧
    WsMin.move E regC wsC arg =
      (regC.setK ridC { roomC with chess := b' },
       [(Dest.toRoom, Ev.moveC (E.fen b') (E.pgn b'))]) := by
  constructor
  · intro hne
    simp [SioRec.move, hd1, hd2, hd3, hd4, hne]
  · simp [WsMin.move, hc1, hc2, hmv, hgo]

/-- C2 witness: the turn-check theorem applied concretely — black's
out-of-turn move is rejected without mutation by the reconnect variant,
while the minimal ws variant applies a move regardless of the requester. -/
theorem C2_witness :
    SioRec.move toyE regD0 sockB "e2" "e4" none 500 =
      (regD0, [(Dest.toSelf, Ev.invalid "not your turn")]) ∧
    WsMin.move toyE regC0 sockC2 ⟨"d2", "d4", none⟩ =
      (regC0.setK "r1" { roomC0 with chess := ⟨[⟨"d2", "d4", none⟩]⟩ },
       [(Dest.toRoom, Ev.moveC "1" "1")]) := by
  have h := C2_turn_check toyE regD0 sockB "r1" "p2" roomD0 pBlack "e2" "e4" none 500
    regC0 sockC2 "r1" roomC0 ⟨[⟨"d2", "d4", none⟩]⟩ ⟨"d2", "d4", none⟩
    rfl (by decide) rfl (by decide) rfl (by decide) (by decide) (by decide)
  exact ⟨h.1 (by decide), h.2⟩

/-- C4 counterexample: a join carrying the player identity of a seat that
is present in the room but currently connected is not treated as a
reconnection: the room being full, it is answered `room full` with no
rebind and no state reply. -/
theorem C4_counterexample :
    regD0.lookupK "r1" = some roomD0 ∧
    roomD0.players.lookupK "p1" = some pWhite ∧
    SioRec.join toyE regD0 sockNew (some "r1") (some "carol") none (some "p1") "pX" 0 =
      (regD0, sockNew, [(Dest.toSelf, Ev.errMsg "room full")]) := by
  refine ⟨by decide, by decide, by decide⟩

/-- C4 (amended): a join carrying a player identity matching a seat of the
room that is currently disconnected re-binds that seat's connection (marks
it connected, replaces the socket binding) and replies with the room's
current full state (position, clocks, names); board, clocks, seat order,
seat color and identity are untouched. -/
theorem C4_reconnect_rebind {Board : Type} (E : Engine Board)
    (reg : SioRec.Reg Board) (sock : SioRec.Sock) (rid pid : String)
    (room : SioRec.Room Board) (p : SioRec.Player)
    (name : Option String) (desiredTime : Option Int) (freshPid : String)
    (now : Int)
    (h1 : reg.lookupK rid = some room)
    (h2 : room.players.lookupK pid = some p)
    (h3 : p.connected = false) :
    SioRec.join E reg sock (some rid) name desiredTime (some pid) freshPid now =
      (reg.setK rid (SioRec.rebind room pid sock.sid p),
       { sock with roomId := some rid, playerId := some pid, color := some p.color },
       [(Dest.toSelf,
         Ev.joinedD pid p.color (E.fen room.chess) room.timers
           (SioRec.namesOf (SioRec.rebind room pid sock.sid p))),
        (Dest.toRoom, Ev.reconnected pid p.name p.color)]) ∧
    (SioRec.rebind room pid sock.sid p).chess = room.chess ∧
    (SioRec.rebind room pid sock.sid p).timers = room.timers ∧
    (SioRec.rebind room pid sock.sid p).order = room.order ∧
    ((SioRec.rebind room pid sock.sid p).players.lookupK pid).map
        (fun q => (q.pid, q.name, q.color, q.connected)) =
      some (p.pid, p.name, p.color, true) := by
  refine ⟨?_, rfl, rfl, rfl, ?_⟩
  · simp [SioRec.join, h1, h2, h3, SioRec.rebind]
  · simp [SioRec.rebind, KMap.lookupK_setK_self]

/-- C4 witness: the reconnection theorem applied to the fixture room whose
black seat is disconnected. -/
theorem C4_witness :
    SioRec.join toyE regD1 sockNew (some "r1") none none (some "p2") "pX" 5 =
      (regD1.setK "r1" (SioRec.rebind roomD1 "p2" "s3" pBlackDisc),
       { sockNew with roomId := some "r1", playerId := some "p2",
                      color := some Color.black },
       [(Dest.toSelf, Ev.joinedD "p2" Color.black "0" ⟨300, 300⟩ ["alice", "bob"]),
        (Dest.toRoom, Ev.reconnected "p2" "bob" Color.black)]) := by
  have h := (C4_reconnect_rebind toyE regD1 sockNew "r1" "p2" roomD1 pBlackDisc
    none none "pX" 5 (by decide) (by decide) rfl).1
  exact h

/-- C6 counterexample: the reconnect socket.io variant's rematch handler
has no state check — in a mid-game room (one move played, game not over)
a rematch command resets the board instead of being rejected. -/
theorem C6_counterexample :
    toyE.gameOver roomD2.chess = false ∧
    roomD2.chess ≠ toyE.init ∧
    ((SioRec.rematch toyE regD2 sockW 7000).1.lookupK "r1").map
        (fun r => r.chess) = some toyE.init := by
  refine ⟨rfl, by decide, by decide⟩

/-- C6 (amended): a rematch command is accepted whenever the requester is
bound to an existing room, regardless of the room's game state: it resets
the board handle (and thereby the derived move history) to the initial
position, keeps the current clock values, restarts the tick loop (in the
reconnect variant), and leaves every other room untouched; it is never
rejected on state grounds. -/
theorem C6_rematch_any_state {Board : Type} (E : Engine Board)
    (regR : SioRec.Reg Board) (sockR : SioRec.Sock) (ridR : String)
    (roomR : SioRec.Room Board) (now : Int)
    (regA : WsUuid.Reg Board) (wsA : WsUuid.Sock) (ridA : String)
    (rA : WsUuid.Room Board)
    (h1 : sockR.roomId = some ridR) (h2 : regR.lookupK ridR = some roomR)
    (h3 : wsA.room = some ridA) (h4 : regA.lookupK ridA = some rA) :
    ((SioRec.rematch E regR sockR now).1.lookupK ridR =
       some { roomR with chess := E.init, timerOn := true, turnStartTs := some now }) ∧
    ((SioRec.rematch E regR sockR now).2 =
       [(Dest.toRoom, Ev.rematchD (E.fen E.init) roomR.timers)]) ∧
    (∀ rid2, rid2 ≠ ridR →
       (SioRec.rematch E regR sockR now).1.lookupK rid2 = regR.lookupK rid2) ∧
    (WsUuid.rematch E regA wsA =
       (regA.setK ridA { rA with chess := E.init, fen := E.fen E.init, pgn := some "" },
        [(Dest.toRoom, Ev.rematchA (E.fen E.init))])) := by
  refine ⟨?_, ?_, ?_, ?_⟩
  · simp [SioRec.rematch, SioRec.stopTimerLoop, SioRec.startTimerLoop, h1, h2,
      KMap.lookupK_setK_self]
  · simp [SioRec.rematch, h1, h2]
  · intro rid2 hne
    have hne' : ridR ≠ rid2 := fun e => hne e.symm
    simp [SioRec.rematch, SioRec.stopTimerLoop, SioRec.startTimerLoop, h1, h2,
      KMap.lookupK_setK_self, KMap.lookupK_setK_ne _ _ _ _ hne']
  · simp [WsUuid.rematch, h3, h4]

/-- C6 witness: the rematch theorem applied to the concrete mid-game room
and to the uuid-variant fixture room. -/
theorem C6_witness :
    ((SioRec.rematch toyE regD2 sockW 7000).1.lookupK "r1" =
       some { roomD2 with chess := toyE.init, timerOn := true,
                          turnStartTs := some 7000 }) ∧
    ((SioRec.rematch toyE regD2 sockW 7000).2 =
       [(Dest.toRoom, Ev.rematchD "0" ⟨300, 300⟩)]) ∧
    (WsUuid.rematch toyE regA0 wsA1 =
       (regA0.setK "r1" { roomA0 with chess := toyE.init, fen := "0", pgn := some "" },
        [(Dest.toRoom, Ev.rematchA "0")])) := by
  have h := C6_rematch_any_state toyE regD2 sockW "r1" roomD2 7000 regA0 wsA1 "r1"
    roomA0 rfl (by decide) rfl (by decide)
  exact ⟨h.1, h.2.1, h.2.2.2⟩

/-- C7 counterexample: in the reconnect socket.io variant, when a
disconnect leaves zero connected seats the room is deleted in the very
same handler invocation — there is no removal grace window. -/
theorem C7_counterexample :
    regD1.lookupK "r1" = some roomD1 ∧
    (SioRec.disconnect regD1 sockW).1.lookupK "r1" = none ∧
    (SioRec.disconnect regD1 sockW).2 =
      [(Dest.toOthers, Ev.peerLeftInfo "p1" "alice" Color.white)] := by
  refine ⟨by decide, by decide, by decide⟩

/-- C7 (amended): in the reconnect variant a disconnect marks the seat's
binding absent (keeping the seat, its identity and color, and every other
room field) and notifies the others; but when it leaves zero connected
seats the room is removed immediately, with no grace window.  In the
minimal ws variant any disconnect deletes the whole room immediately. -/
theorem C7_disconnect_behavior {Board : Type}
    (reg : SioRec.Reg Board) (sock : SioRec.Sock) (rid pid : String)
    (room : SioRec.Room Board) (p : SioRec.Player)
    (regC : WsMin.Reg Board) (wsC : WsMin.Sock) (ridC : String)
    (roomC : WsMin.Room Board)
    (h1 : sock.roomId = some rid) (h2 : reg.lookupK rid = some room)
    (h3 : room.players.find? (fun q => q.2.socketId == some sock.sid) =
      some (pid, p))
    (hnd : (reg.map Prod.fst).Nodup)
    (hc1 : wsC.room = some ridC) (hc2 : regC.lookupK ridC = some roomC) :
    (((SioRec.markDisconnected room pid p).players.filter
        (fun q => q.2.connected)).length ≠ 0 →
      SioRec.disconnect reg sock =
        (reg.setK rid (SioRec.markDisconnected room pid p),
         [(Dest.toOthers, Ev.peerLeftInfo pid p.name p.color)])) ∧
    (((SioRec.markDisconnected room pid p).players.filter
        (fun q => q.2.connected)).length = 0 →
      (SioRec.disconnect reg sock).1.lookupK rid = none ∧
      (SioRec.disconnect reg sock).2 =
        [(Dest.toOthers, Ev.peerLeftInfo pid p.name p.color)]) ∧
    ((SioRec.markDisconnected room pid p).chess = room.chess ∧
     (SioRec.markDisconnected room pid p).timers = room.timers ∧
     (SioRec.markDisconnected room pid p).order = room.order) ∧
    WsMin.close regC wsC = (regC.eraseK ridC, [(Dest.toOthers, Ev.peerLeft)]) := by
  refine ⟨?_, ?_, ⟨rfl, rfl, rfl⟩, ?_⟩
  · intro hcount
    simp [SioRec.disconnect, h1, h2, h3, hcount]
  · intro hcount
    have hnd1 : ((reg.setK rid (SioRec.markDisconnected room pid p)).map
        Prod.fst).Nodup := KMap.keys_nodup_setK reg rid _ hnd
    have hnd2 : (((SioRec.stopTimerLoop
        (reg.setK rid (SioRec.markDisconnected room pid p)) rid)).map
        Prod.fst).Nodup := by
      simp only [SioRec.stopTimerLoop, KMap.lookupK_setK_self]
      exact KMap.keys_nodup_setK _ rid _ hnd1
    constructor
    · simp [SioRec.disconnect, h1, h2, h3, hcount, SioRec.clearRoom,
        KMap.lookupK_setK_self, KMap.lookupK_eraseK_self _ _ hnd2]
    · simp [SioRec.disconnect, h1, h2, h3, hcount]
  · simp [WsMin.close, hc1, hc2]

/-- C7 witness: the disconnect theorem applied concretely — in a room with
both seats connected, white's disconnect keeps the room (black is still
connected) and keeps the seat, merely marking it disconnected. -/
theorem C7_witness :
    SioRec.disconnect regD0 sockW =
      (regD0.setK "r1" (SioRec.markDisconnected roomD0 "p1" pWhite),
       [(Dest.toOthers, Ev.peerLeftInfo "p1" "alice" Color.white)]) ∧
    WsMin.close regC0 sockC2 = (regC0.eraseK "r1", [(Dest.toOthers, Ev.peerLeft)]) := by
  have h := C7_disconnect_behavior regD0 sockW "r1" "p1" roomD0 pWhite regC0 sockC2
    "r1" roomC0 rfl (by decide) (by decide) (by decide) rfl (by decide)
  exact ⟨h.1 (by decide), h.2.2.2⟩

/-- Starting the tick loop never changes a room's board or clocks. -/
theorem SioRec.startTimerLoop_frame {Board : Type} (reg : SioRec.Reg Board)
    (rid : String) (now : Int) (rid2 : String) :
    ((SioRec.startTimerLoop reg rid now).lookupK rid2).map
        (fun r => (r.chess, r.timers)) =
      (reg.lookupK rid2).map (fun r => (r.chess, r.timers)) := by
  unfold SioRec.startTimerLoop
  cases h : reg.lookupK rid with
  | none => rfl
  | some room =>
      by_cases ht : room.timerOn
      · simp [ht]
      · by_cases he : rid = rid2
        · subst he
          simp [ht, KMap.lookupK_setK_self, h]
        · simp [ht, KMap.lookupK_setK_ne _ _ _ _ he]

/-- C8: `getOrCreate` behaviour of the join handler — a join to an
existing room id uses that room, ignores the requested clock
configuration, and never resets its board or clocks; a join to an unseen
room id creates exactly one room whose two clocks hold the requested
duration, leaving every other room untouched. -/
theorem C8_getOrCreate_idempotent {Board : Type} (E : Engine Board)
    (regE regN : SioRec.Reg Board) (sock : SioRec.Sock) (rid rid2 : String)
    (room : SioRec.Room Board) (name : Option String)
    (d1 d2 : Option Int) (d : Int) (ipid : Option String) (freshPid : String)
    (now : Int)
    (hex : regE.lookupK rid = some room)
    (hnew : regN.lookupK rid2 = none)
    (hd : d ≠ 0) :
    (SioRec.join E regE sock (some rid) name d1 ipid freshPid now =
      SioRec.join E regE sock (some rid) name d2 ipid freshPid now) ∧
    (((SioRec.join E regE sock (some rid) name d1 ipid freshPid now).1.lookupK
        rid).map (fun r => (r.chess, r.timers)) =
      some (room.chess, room.timers)) ∧
    (((SioRec.join E regN sock (some rid2) name (some d) ipid freshPid
        now).1.lookupK rid2).map (fun r => (r.chess, r.timers)) =
      some (E.init, ⟨d, d⟩)) ∧
    (∀ rid3, rid3 ≠ rid2 →
      (SioRec.join E regN sock (some rid2) name (some d) ipid freshPid
        now).1.lookupK rid3 = regN.lookupK rid3) := by
  refine ⟨?_, ?_, ?_, ?_⟩
  · simp [SioRec.join, hex]
  · simp only [SioRec.join, hex]
    rcases ipid with _ | pid
    · simp only []
      split
      · simp [hex]
      · split <;> split <;>
          simp [SioRec.startTimerLoop_frame, KMap.lookupK_setK_self]
    · cases hp : room.players.lookupK pid with
      | none =>
          simp only [hp]
          split
          · simp [hex]
          · split <;> split <;>
              simp [SioRec.startTimerLoop_frame, KMap.lookupK_setK_self]
      | some p =>
          simp only [hp]
          by_cases hc : p.connected
          · rw [if_pos hc]
            simp only []
            split
            · simp [hex]
            · split <;> split <;>
                simp [SioRec.startTimerLoop_frame, KMap.lookupK_setK_self]
          · rw [if_neg hc]
            simp [SioRec.rebind, KMap.lookupK_setK_self]
  · simp only [SioRec.join, hnew]
    have hd300 : numberOr300 (some d) = d := by simp [numberOr300, hd]
    rcases ipid with _ | pid
    · simp [hd300, SioRec.makeRoom, KMap.lookupK_setK_self, KMap.setK]
    · simp [hd300, SioRec.makeRoom, KMap.lookupK_setK_self, KMap.setK,
        KMap.lookupK]
  · intro rid3 hne
    have hne' : rid2 ≠ rid3 := fun e => hne e.symm
    simp only [SioRec.join, hnew]
    rcases ipid with _ | pid
    · simp [SioRec.makeRoom, KMap.setK, KMap.lookupK,
        KMap.lookupK_setK_ne _ _ _ _ hne']
    · simp [SioRec.makeRoom, KMap.setK, KMap.lookupK,
        KMap.lookupK_setK_ne _ _ _ _ hne']

/-- C8 witness: concrete instantiation — joining the existing fixture room
with two different requested durations gives identical results and keeps
board and clocks; joining an unseen id with a 120-second request creates
a room clocked at 120/120 and leaves the existing room untouched. -/
theorem C8_witness :
    (SioRec.join toyE regD0 sockNew (some "r1") (some "carol") (some 100) none
        "pX" 0 =
      SioRec.join toyE regD0 sockNew (some "r1") (some "carol") (some 200) none
        "pX" 0) ∧
    (((SioRec.join toyE regD0 sockNew (some "r2") (some "carol") (some 120) none
        "pX" 0).1.lookupK "r2").map (fun r => (r.chess, r.timers)) =
      some (⟨[]⟩, ⟨120, 120⟩)) ∧
    ((SioRec.join toyE regD0 sockNew (some "r2") (some "carol") (some 120) none
        "pX" 0).1.lookupK "r1" = some roomD0) := by
  have h := C8_getOrCreate_idempotent toyE regD0 regD0 sockNew "r1" "r2" roomD0
    (some "carol") (some 100) (some 200) 120 none "pX" 0 (by decide) (by decide)
    (by decide)
  refine ⟨h.1, h.2.2.1, ?_⟩
  have h4 := h.2.2.2 "r1" (by decide)
  rw [h4]
  decide

/-- Non-negativity of a clock pair. -/
abbrev timersNonneg (t : Timers) : Prop := 0 ≤ t.white ∧ 0 ≤ t.black

/-- Registry invariant for the reconnect variant: every room's clocks are
non-negative and room ids are unique. -/
abbrev regInvD {Board : Type} (reg : SioRec.Reg Board) : Prop :=
  (∀ p ∈ reg, timersNonneg p.2.timers) ∧ (reg.map Prod.fst).Nodup

theorem regInvD_setK {Board : Type} {reg : SioRec.Reg Board} {rid : String}
    {room : SioRec.Room Board} (h : regInvD reg)
    (ht : timersNonneg room.timers) : regInvD (reg.setK rid room) := by
  refine ⟨fun p hp => ?_, KMap.keys_nodup_setK reg rid room h.2⟩
  rcases KMap.mem_setK reg rid room p hp with h1 | h1
  · rw [h1]; exact ht
  · exact h.1 p h1

theorem regInvD_eraseK {Board : Type} {reg : SioRec.Reg Board} {rid : String}
    (h : regInvD reg) : regInvD (reg.eraseK rid) :=
  ⟨fun p hp => h.1 p (KMap.mem_eraseK reg rid p hp),
   KMap.keys_nodup_eraseK reg rid h.2⟩

theorem timersNonneg_of_lookupK {Board : Type} {reg : SioRec.Reg Board}
    {rid : String} {room : SioRec.Room Board} (h : regInvD reg)
    (hl : reg.lookupK rid = some room) : timersNonneg room.timers :=
  h.1 (rid, room) (KMap.mem_of_lookupK reg rid room hl)

theorem regInvD_startTimerLoop {Board : Type} {reg : SioRec.Reg Board}
    (rid : String) (now : Int) (h : regInvD reg) :
    regInvD (SioRec.startTimerLoop reg rid now) := by
  unfold SioRec.startTimerLoop
  cases hl : reg.lookupK rid with
  | none => exact h
  | some room =>
      cases ht : room.timerOn
      · simp only [ht, Bool.false_eq_true, if_false]
        exact regInvD_setK h (show timersNonneg room.timers from timersNonneg_of_lookupK h hl)
      · simp only [ht, if_true]
        exact h

theorem regInvD_stopTimerLoop {Board : Type} {reg : SioRec.Reg Board}
    (rid : String) (h : regInvD reg) :
    regInvD (SioRec.stopTimerLoop reg rid) := by
  unfold SioRec.stopTimerLoop
  cases hl : reg.lookupK rid with
  | none => exact h
  | some room =>
      exact regInvD_setK h (show timersNonneg room.timers from timersNonneg_of_lookupK h hl)

theorem regInvD_clearRoom {Board : Type} {reg : SioRec.Reg Board}
    (rid : String) (h : regInvD reg) : regInvD (SioRec.clearRoom reg rid) := by
  unfold SioRec.clearRoom
  cases hl : reg.lookupK rid with
  | none => exact h
  | some room => exact regInvD_eraseK (regInvD_stopTimerLoop rid h)

theorem regInvD_join {Board : Type} (E : Engine Board)
    {reg : SioRec.Reg Board} (sock : SioRec.Sock)
    (roomId name : Option String) (desiredTime : Option Int)
    (ipid : Option String) (freshPid : String) (now : Int)
    (hd : 0 ≤ numberOr300 desiredTime) (h : regInvD reg) :
    regInvD (SioRec.join E reg sock roomId name desiredTime ipid freshPid now).1 := by
  rcases roomId with _ | rid
  · exact h
  · simp only [SioRec.join]
    cases hl : reg.lookupK rid with
    | some room =>
        have h1 : regInvD reg := h
        have hroom : timersNonneg room.timers := timersNonneg_of_lookupK h hl
        rcases ipid with _ | pid
        · simp only []
          split
          · exact h1
          · split <;> split <;>
              first
                | exact regInvD_startTimerLoop _ _ (regInvD_setK h1 hroom)
                | exact regInvD_setK h1 hroom
        · cases hp : room.players.lookupK pid with
          | none =>
              simp only [hp]
              split
              · exact h1
              · split <;> split <;>
                  first
                    | exact regInvD_startTimerLoop _ _ (regInvD_setK h1 hroom)
                    | exact regInvD_setK h1 hroom
          | some p =>
              simp only [hp]
              cases hc : p.connected
              · rw [if_neg (by simp [hc])]
                exact regInvD_setK h1 hroom
              · rw [if_pos (by simp [hc])]
                simp only []
                split
                · exact h1
                · split <;> split <;>
                    first
                      | exact regInvD_startTimerLoop _ _ (regInvD_setK h1 hroom)
                      | exact regInvD_setK h1 hroom
    | none =>
        have hroom : timersNonneg (SioRec.makeRoom E (numberOr300 desiredTime)).timers :=
          ⟨hd, hd⟩
        have h1 : regInvD (reg.setK rid (SioRec.makeRoom E (numberOr300 desiredTime))) :=
          regInvD_setK h hroom
        rcases ipid with _ | pid
        · simp only []
          split
          · exact h1
          · split <;> split <;>
              first
                | exact regInvD_startTimerLoop _ _ (regInvD_setK h1 hroom)
                | exact regInvD_setK h1 hroom
        · cases hp : (SioRec.makeRoom E (numberOr300 desiredTime)).players.lookupK pid with
          | none =>
              simp only [hp]
              split
              · exact h1
              · split <;> split <;>
                  first
                    | exact regInvD_startTimerLoop _ _ (regInvD_setK h1 hroom)
                    | exact regInvD_setK h1 hroom
          | some p =>
              simp only [hp]
              cases hc : p.connected
              · rw [if_neg (by simp [hc])]
                exact regInvD_setK h1 hroom
              · rw [if_pos (by simp [hc])]
                simp only []
                split
                · exact h1
                · split <;> split <;>
                    first
                      | exact regInvD_startTimerLoop _ _ (regInvD_setK h1 hroom)
                      | exact regInvD_setK h1 hroom

theorem regInvD_move {Board : Type} (E : Engine Board)
    {reg : SioRec.Reg Board} (sock : SioRec.Sock) (mfrom mto : String)
    (promo : Option Char) (now : Int) (h : regInvD reg) :
    regInvD (SioRec.move E reg sock mfrom mto promo now).1 := by
  simp only [SioRec.move]
  cases hrid : sock.roomId with
  | none => exact h
  | some rid =>
  simp only []
  cases hl : reg.lookupK rid with
  | none => exact h
  | some room =>
  simp only []
  cases hpl : sock.playerId.bind room.players.lookupK with
  | none => exact h
  | some player =>
      simp only []
      have hroom : timersNonneg room.timers := timersNonneg_of_lookupK h hl
      split
      · exact h
      · have hroom1 : timersNonneg
            (match room.turnStartTs with
             | none => room
             | some ts =>
                 SioRec.deduct room (E.turn room.chess)
                   (Int.fdiv (now - ts) 1000)).timers := by
          cases hts : room.turnStartTs with
          | none => exact hroom
          | some ts => exact Timers.nonneg_set_max _ _ _ hroom
        split
        · exact regInvD_setK h hroom1
        · split
          · exact regInvD_startTimerLoop _ _
              (regInvD_stopTimerLoop _ (regInvD_setK h hroom1))
          · exact regInvD_startTimerLoop _ _
              (regInvD_stopTimerLoop _ (regInvD_setK h hroom1))

theorem regInvD_resign {Board : Type} {reg : SioRec.Reg Board}
    (sock : SioRec.Sock) (h : regInvD reg) :
    regInvD (SioRec.resign reg sock).1 := by
  simp only [SioRec.resign]
  cases sock.roomId with
  | none => exact h
  | some rid =>
  simp only []
  cases reg.lookupK rid with
  | none => exact h
  | some room =>
  simp only []
  cases sock.playerId.bind room.players.lookupK with
  | none => exact h
  | some loser => exact regInvD_clearRoom _ h

theorem regInvD_rematch {Board : Type} (E : Engine Board)
    {reg : SioRec.Reg Board} (sock : SioRec.Sock) (now : Int)
    (h : regInvD reg) : regInvD (SioRec.rematch E reg sock now).1 := by
  simp only [SioRec.rematch]
  cases sock.roomId with
  | none => exact h
  | some rid =>
  simp only []
  cases hl : reg.lookupK rid with
  | none => exact h
  | some room =>
      exact regInvD_startTimerLoop _ _ (regInvD_stopTimerLoop _
        (regInvD_setK h (show timersNonneg room.timers from timersNonneg_of_lookupK h hl)))

theorem regInvD_disconnect {Board : Type} {reg : SioRec.Reg Board}
    (sock : SioRec.Sock) (h : regInvD reg) :
    regInvD (SioRec.disconnect reg sock).1 := by
  simp only [SioRec.disconnect]
  cases sock.roomId with
  | none => exact h
  | some rid =>
  simp only []
  cases hl : reg.lookupK rid with
  | none => exact h
  | some room =>
  simp only []
  cases hpp : room.players.find? (fun q => q.2.socketId == some sock.sid) with
  | none => exact h
  | some pp =>
      simp only []
      have hroom : timersNonneg room.timers := timersNonneg_of_lookupK h hl
      split
      · exact regInvD_clearRoom _ (regInvD_setK h hroom)
      · exact regInvD_setK h hroom

theorem regInvD_tick {Board : Type} (E : Engine Board)
    {reg : SioRec.Reg Board} (rid : String) (h : regInvD reg) :
    regInvD (SioRec.tick E reg rid).1 := by
  simp only [SioRec.tick]
  cases hl : reg.lookupK rid with
  | none => exact h
  | some room =>
      simp only []
      have hroom : timersNonneg room.timers := timersNonneg_of_lookupK h hl
      split
      · split
        · apply regInvD_clearRoom
          apply regInvD_setK h
          exact Timers.nonneg_set_max _ _ _ hroom
        · apply regInvD_setK h
          exact Timers.nonneg_set_max _ _ _ hroom
      · split
        · apply regInvD_clearRoom
          apply regInvD_setK h
          exact hroom
        · apply regInvD_setK h
          exact hroom

/-- The room states reachable in the reconnect socket.io server, starting
from the empty registry, under joins whose effective requested duration
(`Number(desiredTime) || 300`) is non-negative. -/
inductive ReachD {Board : Type} (E : Engine Board) : SioRec.Reg Board → Prop where
  | nil : ReachD E []
  | join (reg : SioRec.Reg Board) (sock : SioRec.Sock)
      (roomId name : Option String) (desiredTime : Option Int)
      (ipid : Option String) (freshPid : String) (now : Int)
      (hd : 0 ≤ numberOr300 desiredTime) (h : ReachD E reg) :
      ReachD E (SioRec.join E reg sock roomId name desiredTime ipid freshPid now).1
  | move (reg : SioRec.Reg Board) (sock : SioRec.Sock) (mfrom mto : String)
      (promo : Option Char) (now : Int) (h : ReachD E reg) :
      ReachD E (SioRec.move E reg sock mfrom mto promo now).1
  | resign (reg : SioRec.Reg Board) (sock : SioRec.Sock) (h : ReachD E reg) :
      ReachD E (SioRec.resign reg sock).1
  | rematch (reg : SioRec.Reg Board) (sock : SioRec.Sock) (now : Int)
      (h : ReachD E reg) : ReachD E (SioRec.rematch E reg sock now).1
  | disconnect (reg : SioRec.Reg Board) (sock : SioRec.Sock)
      (h : ReachD E reg) : ReachD E (SioRec.disconnect reg sock).1
  | tick (reg : SioRec.Reg Board) (rid : String) (h : ReachD E reg) :
      ReachD E (SioRec.tick E reg rid).1

theorem reachD_inv {Board : Type} {E : Engine Board} {reg : SioRec.Reg Board}
    (h : ReachD E reg) : regInvD reg := by
  induction h with
  | nil => exact ⟨by simp, by simp⟩
  | join reg sock roomId name desiredTime ipid freshPid now hd h ih =>
      exact regInvD_join E sock roomId name desiredTime ipid freshPid now hd ih
  | move reg sock mfrom mto promo now h ih =>
      exact regInvD_move E sock mfrom mto promo now ih
  | resign reg sock h ih => exact regInvD_resign sock ih
  | rematch reg sock now h ih => exact regInvD_rematch E sock now ih
  | disconnect reg sock h ih => exact regInvD_disconnect sock ih
  | tick reg rid h ih => exact regInvD_tick E rid ih

/-- C5 counterexample: the join handler does not validate the requested
clock duration, so a join to a fresh room requesting `-5` seconds creates
a reachable room whose white clock is `-5 < 0`. -/
theorem C5_counterexample :
    ((SioRec.join toyE [] sockNew (some "r1") (some "alice") (some (-5)) none
        "p1" 0).1.lookupK "r1").map (fun r => r.timers.white) = some (-5) ∧
    ((-5 : Int) < 0) := by
  refine ⟨by decide, by decide⟩

/-- C5 (amended): in every room state reachable under joins whose
effective requested duration is non-negative, both clocks are
non-negative (every deduction clamps at zero); a tick that finds the
side-to-move's clock at or below zero after its decrement emits the
timers update followed by exactly one timeout naming the opposing color
as winner and removes the room at once, so ticking has stopped; and a
tick on a removed (or never-created) room id mutates nothing and emits
nothing — a second timeout for the same room is impossible. -/
theorem C5_clock_nonneg_timeout_once {Board : Type} (E : Engine Board)
    (reg : SioRec.Reg Board) (h : ReachD E reg) :
    (∀ p ∈ reg, 0 ≤ p.2.timers.white ∧ 0 ≤ p.2.timers.black) ∧
    (∀ rid room, reg.lookupK rid = some room →
      ∀ timers' : Timers,
        timers' = (if 0 < room.timers.get (E.turn room.chess) then
            room.timers.set (E.turn room.chess)
              (max 0 (room.timers.get (E.turn room.chess) - 1))
          else room.timers) →
        timers'.get (E.turn room.chess) ≤ 0 →
        (SioRec.tick E reg rid).2 =
          [(Dest.toRoom, Ev.timersEv timers' (E.turn room.chess)),
           (Dest.toRoom, Ev.timeoutsEv (E.turn room.chess).other)] ∧
        (SioRec.tick E reg rid).1.lookupK rid = none) ∧
    (∀ rid, reg.lookupK rid = none → SioRec.tick E reg rid = (reg, [])) := by
  have hinv := reachD_inv h
  refine ⟨hinv.1, ?_, ?_⟩
  · intro rid room hl timers' htdef hle
    subst htdef
    constructor
    · simp [SioRec.tick, hl, hle]
    · simp only [SioRec.tick, hl]
      rw [if_pos hle]
      unfold SioRec.clearRoom
      rw [KMap.lookupK_setK_self]
      simp only []
      unfold SioRec.stopTimerLoop
      rw [KMap.lookupK_setK_self]
      simp only []
      exact KMap.lookupK_eraseK_self _ _
        (KMap.keys_nodup_setK _ _ _ (KMap.keys_nodup_setK _ _ _ hinv.2))
  · intro rid hl
    simp [SioRec.tick, hl]

/-- C5 witness: the theorem applied to the concrete reachable registry
obtained by one valid join — a tick on an absent room id is a no-op. -/
theorem C5_witness :
    SioRec.tick toyE
        (SioRec.join toyE [] sockNew (some "r1") (some "alice") (some 300) none
          "p1" 0).1 "zz" =
      ((SioRec.join toyE [] sockNew (some "r1") (some "alice") (some 300) none
          "p1" 0).1, []) :=
  (C5_clock_nonneg_timeout_once toyE _
    (ReachD.join [] sockNew (some "r1") (some "alice") (some 300) none "p1" 0
      (by decide) ReachD.nil)).2.2 "zz" (by decide)
